import Mathlib

/-!
Verification of the gradientslider carousel engine.

The JavaScript sources (`script-entry.js` and the unnamed variant file) are
shallowly embedded below.  JavaScript numbers are modelled as exact rationals
(`ℚ`); the two places where the code uses a transcendental power
(`Math.pow(FRICTION, dt*60)` and `Math.pow(|norm|, 1.1)`) are modelled over
`ℝ` with real exponentiation.  Non-finite results (NaN / Infinity, which JS
produces on division or modulo by zero) are modelled by `Option ℚ`, with
`none` standing for a non-finite value.
-/

/-! ### Definitions (shallow embedding of the sources) -/

/-- Truncation toward zero, as used by the JavaScript `%` operator. -/
def qtrunc (x : ℚ) : ℤ := if 0 ≤ x then ⌊x⌋ else ⌈x⌉

/-- The JavaScript remainder operator `a % b` (truncated division
remainder), for a nonzero divisor. -/
def jsRem (a b : ℚ) : ℚ := a - b * qtrunc (a / b)

/-- Source: `function mod(n, m) { return ((n % m) + m) % m; }` — the
safe modulo from both source files, for a nonzero divisor. -/
def mod (n m : ℚ) : ℚ := jsRem (jsRem n m + m) m

/-- The wrapped position computed inside `updateCarouselTransforms`:
`let pos = items[i].x - SCROLL_X; if (pos < -half) pos += TRACK;
if (pos > half) pos -= TRACK;` with `half = TRACK / 2`. -/
def wrapPos (L base offset : ℚ) : ℚ :=
  let pos := base - offset
  let pos2 := if pos < -(L / 2) then pos + L else pos
  if pos2 > L / 2 then pos2 - L else pos2

/-- The list of wrapped positions of all items: item `i` has base
offset `i * STEP` and `TRACK = n * STEP` (from `measure`). -/
def resolvePositions (n : ℕ) (step offset : ℚ) : List ℚ :=
  (List.range n).map fun i : ℕ => wrapPos ((n : ℚ) * step) ((i : ℚ) * step) offset

/-- The nearest-center scan of `updateCarouselTransforms`: walk
positions left to right keeping the best index; `none` models the initial
`closestDist = Infinity`. -/
def closestScan : List ℚ → ℕ → ℤ → Option ℚ → ℤ
  | [], _, b, _ => b
  | p :: rest, i, _, none => closestScan rest (i + 1) (i : ℤ) (some |p|)
  | p :: rest, i, b, some d =>
    if |p| < d then closestScan rest (i + 1) (i : ℤ) (some |p|)
    else closestScan rest (i + 1) b (some d)

/-- The value `closestIdx` as computed by the scan, starting from
`closestIdx = -1`, `closestDist = Infinity`. -/
def closestIdx (l : List ℚ) : ℤ := closestScan l 0 (-1) none

/-- One integration step of `tick`,
`SCROLL_X = mod(SCROLL_X + vX * dt, TRACK)`, iterated over a list of
`(velocity, dt)` pairs. -/
def integrateSteps (L : ℚ) (x : ℚ) (vs : List (ℚ × ℚ)) : ℚ :=
  vs.foldl (fun acc vd => mod (acc + vd.1 * vd.2) L) x

/-- Source: `const FRICTION = 0.9;` -/
noncomputable def FRICTION : ℝ := 9 / 10

/-- Source: `const decay = Math.pow(FRICTION, dt * 60);` (real
exponentiation). -/
noncomputable def decayOf (dt : ℝ) : ℝ := FRICTION ^ (dt * 60)

/-- The velocity update of `tick`:
`vX *= decay; if (Math.abs(vX) < 0.02) vX = 0;`. -/
noncomputable def tickVel (v dt : ℝ) : ℝ :=
  let v2 := v * decayOf dt
  if |v2| < 1 / 50 then 0 else v2

/-- Source: `const norm = Math.max(-1, Math.min(1, pos / VW_HALF));` -/
noncomputable def normOf (pos vwHalf : ℝ) : ℝ := max (-1) (min 1 (pos / vwHalf))

/-- Source: `const blur = isCore ? 0 : COEF * Math.pow(Math.abs(norm), 1.1);`
with `COEF = 2` in `script-entry.js` and `COEF = 3` in the variant file. -/
noncomputable def blurOf (coef : ℝ) (core : Bool) (norm : ℝ) : ℝ :=
  if core then 0 else coef * |norm| ^ ((11 : ℝ) / 10)

/-- From `script-entry.js`:
`const isCore = i === closestIdx || i === prevIdx || i === nextIdx;`
with `prevIdx = (closestIdx - 1 + items.length) % items.length` and
`nextIdx = (closestIdx + 1) % items.length`. -/
def isCoreEntry (i : ℕ) (closest : ℤ) (n : ℕ) : Bool :=
  decide ((i : ℤ) = closest) ||
    decide ((i : ℤ) = (closest - 1 + (n : ℤ)) % (n : ℤ)) ||
    decide ((i : ℤ) = (closest + 1) % (n : ℤ))

/-- From the variant file: `const isCore = (i === closestIdx);` -/
def isCorePart (i : ℕ) (closest : ℤ) : Bool := decide ((i : ℤ) = closest)

/-- Blur applied to item `i` in the `script-entry.js` variant. -/
noncomputable def itemBlurEntry (n : ℕ) (step offset : ℚ) (vwHalf : ℝ) (i : ℕ) : ℝ :=
  blurOf 2 (isCoreEntry i (closestIdx (resolvePositions n step offset)) n)
    (normOf (((resolvePositions n step offset).getD i 0 : ℚ) : ℝ) vwHalf)

/-- Blur applied to item `i` in the variant file. -/
noncomputable def itemBlurPart (n : ℕ) (step offset : ℚ) (vwHalf : ℝ) (i : ℕ) : ℝ :=
  blurOf 3 (isCorePart i (closestIdx (resolvePositions n step offset)))
    (normOf (((resolvePositions n step offset).getD i 0 : ℚ) : ℝ) vwHalf)

/-- JavaScript `Math.round` (round half toward positive infinity). -/
def jround (x : ℚ) : ℤ := ⌊x + 1 / 2⌋

/-- A palette as produced by `extractColors` / `fallbackFromIndex`: the
fallback carries only `c1`/`c2`, the full extractor also `c3`/`c4`. -/
structure Palette where
  c1 : ℤ × ℤ × ℤ
  c2 : ℤ × ℤ × ℤ
  c3 : Option (ℤ × ℤ × ℤ)
  c4 : Option (ℤ × ℤ × ℤ)
deriving DecidableEq

/-- The twelve channels of `gradCurrent` in the variant file. -/
structure GradChannels where
  r1 : ℚ
  g1 : ℚ
  b1 : ℚ
  r2 : ℚ
  g2 : ℚ
  b2 : ℚ
  r3 : ℚ
  g3 : ℚ
  b3 : ℚ
  r4 : ℚ
  g4 : ℚ
  b4 : ℚ
deriving DecidableEq

/-- The mutable state touched by `setActiveGradient`: `activeIndex`,
`gradCurrent`, `bgFastUntil`, and the target of an in-flight `gsap` tween
(`none` when no animation has been started). -/
structure BGState where
  activeIndex : ℤ
  gradCurrent : GradChannels
  bgFastUntil : ℚ
  tween : Option GradChannels
deriving DecidableEq

/-- Initial `gradCurrent` of the variant file. -/
def initGradCurrent : GradChannels :=
  { r1 := 240, g1 := 240, b1 := 240, r2 := 235, g2 := 235, b2 := 235,
    r3 := 248, g3 := 248, b3 := 248, r4 := 245, g4 := 245, b4 := 245 }

/-- Initial animator state: `activeIndex = -1`, no tween,
`bgFastUntil = 0`. -/
def initBGState : BGState :=
  { activeIndex := -1, gradCurrent := initGradCurrent, bgFastUntil := 0,
    tween := none }

/-- Source: `Math.round(c + (255 - c) * t)` — the whitening blend for
missing accent channels. -/
def mixW (c : ℤ) (t : ℚ) : ℤ := jround ((c : ℚ) + (255 - (c : ℚ)) * t)

/-- The default palette used when `gradPalette[idx]` is undefined:
`{ c1: [240,240,240], c2: [235,235,235], c3: [248,248,248],
c4: [245,245,245] }`. -/
def defaultPal : Palette :=
  { c1 := (240, 240, 240), c2 := (235, 235, 235),
    c3 := some (248, 248, 248), c4 := some (245, 245, 245) }

/-- The 12-channel target built inside `setActiveGradient`, including
the `pal.c3 ? ... : Math.round(...)` fallbacks. -/
def targetOf (pal : Palette) : GradChannels :=
  { r1 := (pal.c1.1 : ℚ), g1 := (pal.c1.2.1 : ℚ), b1 := (pal.c1.2.2 : ℚ),
    r2 := (pal.c2.1 : ℚ), g2 := (pal.c2.2.1 : ℚ), b2 := (pal.c2.2.2 : ℚ),
    r3 := match pal.c3 with
      | some c => (c.1 : ℚ)
      | none => (mixW pal.c1.1 (1 / 10) : ℚ),
    g3 := match pal.c3 with
      | some c => (c.2.1 : ℚ)
      | none => (mixW pal.c1.2.1 (1 / 10) : ℚ),
    b3 := match pal.c3 with
      | some c => (c.2.2 : ℚ)
      | none => (mixW pal.c1.2.2 (1 / 10) : ℚ),
    r4 := match pal.c4 with
      | some c => (c.1 : ℚ)
      | none => (mixW pal.c2.1 (3 / 20) : ℚ),
    g4 := match pal.c4 with
      | some c => (c.2.1 : ℚ)
      | none => (mixW pal.c2.2.1 (3 / 20) : ℚ),
    b4 := match pal.c4 with
      | some c => (c.2.2 : ℚ)
      | none => (mixW pal.c2.2.2 (3 / 20) : ℚ) }

/-- The function `setActiveGradient(idx)` from the variant file.
`if (!bgCtx || idx < 0 || idx >= items.length || idx === activeIndex)
return;` then either a `gsap` tween toward the target is started and
`bgFastUntil = now + 800`, or (no `gsap`) `gradCurrent` is assigned the
target immediately. -/
def setActiveGradient (hasCtx hasGsap : Bool) (now : ℚ) (pals : List Palette)
    (nItems : ℕ) (idx : ℤ) (st : BGState) : BGState :=
  if ¬hasCtx = true ∨ idx < 0 ∨ (nItems : ℤ) ≤ idx ∨ idx = st.activeIndex then
    st
  else
    let pal := pals.getD idx.toNat defaultPal
    let tgt := targetOf pal
    if hasGsap then
      { activeIndex := idx, gradCurrent := st.gradCurrent,
        bgFastUntil := now + 800, tween := some tgt }
    else
      { activeIndex := idx, gradCurrent := tgt,
        bgFastUntil := st.bgFastUntil, tween := st.tween }

/-- A sequence of retarget calls, left to right. -/
def applyRetargets (hasCtx hasGsap : Bool) (now : ℚ) (pals : List Palette)
    (nItems : ℕ) (idxs : List ℤ) (st : BGState) : BGState :=
  idxs.foldl (fun s i => setActiveGradient hasCtx hasGsap now pals nItems i s) st

/-- The offset update of `tick`,
`SCROLL_X = mod(SCROLL_X + vX * dt, TRACK)`, with the JS semantics of
`x % 0 = NaN` made explicit: `none` models a non-finite result. -/
def tickOffset (x v dt T : ℚ) : Option ℚ :=
  if T = 0 then none else some (mod (x + v * dt) T)

/-- Source: `const prevStep = STEP || 1;` from `onResize`. -/
def prevStepOf (s : ℚ) : ℚ := if s = 0 then 1 else s

/-- The offset rescale of `onResize`:
`const ratio = SCROLL_X / (items.length * prevStep);`
`SCROLL_X = mod(ratio * TRACK, TRACK);` — division by a zero denominator
gives a non-finite `ratio` (hence a NaN result of `mod`), and `mod(x, 0)`
is NaN; both are modelled as `none`. -/
def onResizeOffset (scrollX : ℚ) (nItems : ℕ) (step newTrack : ℚ) : Option ℚ :=
  let denom := (nItems : ℚ) * prevStepOf step
  if denom = 0 then none
  else if newTrack = 0 then none
  else some (mod (scrollX / denom * newTrack) newTrack)

/-- One RGBA pixel of the sampled buffer (byte channels). -/
structure Pixel where
  r : ℕ
  g : ℕ
  b : ℕ
  a : ℕ
deriving DecidableEq

/-- Source: `rgbToHsl(r, g, b)`, returning `[h * 360, s, l]`; the
`switch (max)` tests `case r` first, then `case g`, then the default. -/
def rgbToHsl (r g b : ℚ) : ℚ × ℚ × ℚ :=
  let r2 := r / 255
  let g2 := g / 255
  let b2 := b / 255
  let mx := max r2 (max g2 b2)
  let mn := min r2 (min g2 b2)
  let l := (mx + mn) / 2
  if mx = mn then (0, 0, l)
  else
    let d := mx - mn
    let s := if l > 1 / 2 then d / (2 - mx - mn) else d / (mx + mn)
    let h := if mx = r2 then (g2 - b2) / d + (if g2 < b2 then 6 else 0)
      else if mx = g2 then (b2 - r2) / d + 2
      else (r2 - g2) / d + 4
    (h / 6 * 360, s, l)

/-- The `hue2rgb(p, q, t)` helper of `hslToRgb`. -/
def hue2rgb (p q t : ℚ) : ℚ :=
  let t1 := if t < 0 then t + 1 else t
  let t2 := if t1 > 1 then t1 - 1 else t1
  if t2 < 1 / 6 then p + (q - p) * 6 * t2
  else if t2 < 1 / 2 then q
  else if t2 < 2 / 3 then p + (q - p) * (2 / 3 - t2) * 6
  else p

/-- Source: `hslToRgb(h, s, l)`, which normalizes the hue with
`h = ((h % 360) + 360) % 360; h /= 360;` and rounds each channel. -/
def hslToRgb (h s l : ℚ) : ℤ × ℤ × ℤ :=
  let h2 := mod h 360 / 360
  if s = 0 then (jround (l * 255), jround (l * 255), jround (l * 255))
  else
    let q := if l < 1 / 2 then l * (1 + s) else l + s - l * s
    let p := 2 * l - q
    (jround (hue2rgb p q (h2 + 1 / 3) * 255), jround (hue2rgb p q h2 * 255),
      jround (hue2rgb p q (h2 - 1 / 3) * 255))

/-- Source: `fallbackFromIndex(idx)` — hue `(idx * 37) % 360`,
saturation `0.65`, lightness `0.52` and `0.72`; no accent colors. -/
def fallbackFromIndex (idx : ℕ) : Palette :=
  { c1 := hslToRgb ((idx * 37 % 360 : ℕ) : ℚ) (13 / 20) (13 / 25),
    c2 := hslToRgb ((idx * 37 % 360 : ℕ) : ℚ) (13 / 20) (18 / 25),
    c3 := none, c4 := none }

/-- The per-pixel filter of the sampling loop: a pixel is skipped when
`a < 0.05`, `l < 0.10`, `l > 0.92` or `s < 0.08`; `passes` is true iff the
pixel is accumulated. -/
def passes (p : Pixel) : Bool :=
  if (p.a : ℚ) / 255 < 1 / 20 then false
  else if (rgbToHsl (p.r : ℚ) (p.g : ℚ) (p.b : ℚ)).2.2 < 1 / 10 ∨
      23 / 25 < (rgbToHsl (p.r : ℚ) (p.g : ℚ) (p.b : ℚ)).2.2 ∨
      (rgbToHsl (p.r : ℚ) (p.g : ℚ) (p.b : ℚ)).2.1 < 2 / 25 then false
  else true

/-- A pixel is filtered out, in the terms of the claim. -/
def filteredOut (p : Pixel) : Prop :=
  (p.a : ℚ) / 255 < 1 / 20 ∨
  (rgbToHsl (p.r : ℚ) (p.g : ℚ) (p.b : ℚ)).2.2 < 1 / 10 ∨
  23 / 25 < (rgbToHsl (p.r : ℚ) (p.g : ℚ) (p.b : ℚ)).2.2 ∨
  (rgbToHsl (p.r : ℚ) (p.g : ℚ) (p.b : ℚ)).2.1 < 2 / 25

/-- Source: `const w = a * (s * s) * (1 - Math.abs(l - 0.5) * 0.6);` -/
def weightOf (p : Pixel) : ℚ :=
  let a := (p.a : ℚ) / 255
  let hsl := rgbToHsl (p.r : ℚ) (p.g : ℚ) (p.b : ℚ)
  a * (hsl.2.1 * hsl.2.1) * (1 - |hsl.2.2 - 1 / 2| * (3 / 5))

/-- The histogram bin of a pixel:
`hi = clamp(floor((h / 360) * 36), 0, 35)`,
`si = clamp(floor(s * 5), 0, 4)`, `bidx = hi * 5 + si`. -/
def binOf (p : Pixel) : ℕ :=
  let hsl := rgbToHsl (p.r : ℚ) (p.g : ℚ) (p.b : ℚ)
  let hi : ℤ := max 0 (min 35 ⌊hsl.1 / 360 * 36⌋)
  let si : ℤ := max 0 (min 4 ⌊hsl.2.1 * 5⌋)
  (hi * 5 + si).toNat

/-- The four accumulator arrays `wSum`, `rSum`, `gSum`, `bSum`. -/
structure Hist where
  w : ℕ → ℚ
  r : ℕ → ℚ
  g : ℕ → ℚ
  b : ℕ → ℚ

/-- All-zero accumulators (`new Float32Array(SIZE)`). -/
def emptyHist : Hist := ⟨fun _ => 0, fun _ => 0, fun _ => 0, fun _ => 0⟩

/-- One iteration of the sampling loop body. -/
def histStep (H : Hist) (p : Pixel) : Hist :=
  if passes p then
    let bi := binOf p
    let w := weightOf p
    { w := Function.update H.w bi (H.w bi + w),
      r := Function.update H.r bi (H.r bi + (p.r : ℚ) * w),
      g := Function.update H.g bi (H.g bi + (p.g : ℚ) * w),
      b := Function.update H.b bi (H.b bi + (p.b : ℚ) * w) }
  else H

/-- The histogram accumulated over the whole pixel buffer. -/
def histOf (data : List Pixel) : Hist := data.foldl histStep emptyHist

/-- Source: `const hueOf = i => Math.floor(i / S_BINS) * (360 / H_BINS);` -/
def hueOf (i : ℕ) : ℚ := ((i / 5 : ℕ) : ℚ) * 10

/-- Source: `const hueDist = (a, b) => { let d = Math.abs(a - b);
return Math.min(d, 360 - d); };` -/
def hueDist (a b : ℚ) : ℚ := min |a - b| (360 - |a - b|)

/-- Stable insertion used to model the JS stable
`indices.sort((a, b) => wSum[b] - wSum[a])` (descending by weight). -/
def insertDesc (w : ℕ → ℚ) (i : ℕ) : List ℕ → List ℕ
  | [] => [i]
  | j :: rest => if w j ≤ w i then i :: j :: rest else j :: insertDesc w i rest

/-- Sort bin indices descending by weight (stable). -/
def sortDesc (w : ℕ → ℚ) (l : List ℕ) : List ℕ := l.foldr (insertDesc w) []

/-- Source: `const indices = [];
for (...) if (wSum[i] > 0) indices.push(i);` -/
def indicesOf (data : List Pixel) : List ℕ :=
  (List.range 180).filter fun i => decide (0 < (histOf data).w i)

/-- The sorted candidate bins. -/
def sortedOf (data : List Pixel) : List ℕ :=
  sortDesc (histOf data).w (indicesOf data)

/-- Source: `const refWeight = wSum[indices[0]] || 1e-6;` -/
def refWeightOf (data : List Pixel) : ℚ :=
  let h := (histOf data).w ((sortedOf data).headD 0)
  if h = 0 then 1 / 1000000 else h

/-- The greedy pick loop:
`for (let k = 0; k < indices.length && picks.length < 4; k++) { ... if
(w < refWeight * 0.22) break; ... if (ok) picks.push(i); }`. -/
def pickLoop (w : ℕ → ℚ) (ref : ℚ) : List ℕ → List ℕ → List ℕ
  | [], picks => picks
  | i :: rest, picks =>
    if 4 ≤ picks.length then picks
    else if w i < ref * (22 / 100) then picks
    else if ∀ j ∈ picks, 32 ≤ hueDist (hueOf i) (hueOf j) then
      pickLoop w ref rest (picks ++ [i])
    else pickLoop w ref rest picks

/-- The picks selected for a pixel buffer. -/
def picksOf (data : List Pixel) : List ℕ :=
  pickLoop (histOf data).w (refWeightOf data) (sortedOf data) []

/-- Source: `const avgRGB = idx => { const w = wSum[idx] || 1e-6; return
[Math.round(rSum[idx] / w), ...]; };` -/
def avgRGB (H : Hist) (i : ℕ) : ℤ × ℤ × ℤ :=
  let w := if H.w i = 0 then 1 / 1000000 else H.w i
  (jround (H.r i / w), jround (H.g i / w), jround (H.b i / w))

/-- Source: `const clamp = (v, a, b) => Math.max(a, Math.min(b, v));` -/
def clampQ (v a b : ℚ) : ℚ := max a (min b v)

/-- Source: `const toRGBFromIdx = (i, L) => { const [r, g, b] = avgRGB(i);
let [h, s] = rgbToHsl(r, g, b); s = clamp(s * 0.92, 0.30, 0.78);
return hslToRgb(h, s, L); };` -/
def toRGBFromIdx (H : Hist) (i : ℕ) (L : ℚ) : ℤ × ℤ × ℤ :=
  let rgb := avgRGB H i
  let hs := rgbToHsl (rgb.1 : ℚ) (rgb.2.1 : ℚ) (rgb.2.2 : ℚ)
  hslToRgb hs.1 (clampQ (hs.2.1 * (23 / 25)) (3 / 10) (39 / 50)) L

/-- The slot rendering described by the specification: take the
weighted-average RGB of the pick bin, convert it back to hue/saturation,
clamp the saturation into `[0.30, 0.78]` after scaling by `0.92`, and
re-render at the fixed lightness of the slot. -/
def specSlotColor (H : Hist) (i : ℕ) (L : ℚ) : ℤ × ℤ × ℤ :=
  let rgb := avgRGB H i
  let hs := rgbToHsl (rgb.1 : ℚ) (rgb.2.1 : ℚ) (rgb.2.2 : ℚ)
  hslToRgb hs.1 (clampQ (hs.2.1 * (23 / 25)) (3 / 10) (39 / 50)) L

/-- The function `extractColors` (variant file) on an already-sampled
pixel buffer: histogram, candidate ranking, greedy hue-separated picks,
fallback when nothing survives, and the four fixed-lightness slots
(`0.50`, `0.68`, `0.60`, `0.72`) with missing picks replaced by the
primary pick (`picks[k] ?? pIdx`). -/
def extractColorsData (data : List Pixel) (idx : ℕ) : Palette :=
  if (indicesOf data).isEmpty then fallbackFromIndex idx
  else if (picksOf data).isEmpty then fallbackFromIndex idx
  else
    let H := histOf data
    let p := (picksOf data).headD 0
    { c1 := toRGBFromIdx H p (1 / 2),
      c2 := toRGBFromIdx H ((picksOf data).getD 1 p) (17 / 25),
      c3 := some (toRGBFromIdx H ((picksOf data).getD 2 p) (3 / 5)),
      c4 := some (toRGBFromIdx H ((picksOf data).getD 3 p) (18 / 25)) }

/-- An opaque mid-gray pixel (saturation `0`, filtered out). -/
def grayPixel : Pixel := ⟨128, 128, 128, 255⟩

/-- A pure red opaque pixel (hue 0, full saturation, mid lightness). -/
def redPixel : Pixel := ⟨255, 0, 0, 255⟩

/-- An opaque orange pixel `rgb(255, 128, 0)`: hue `512/17 ≈ 30.1`, full
saturation, mid lightness; lands in hue bucket 3 (bin 19, bin hue 30). -/
def orangePixel : Pixel := ⟨255, 128, 0, 255⟩

/-- The loop body of the primary scan of `extractColors` in
`script-entry.js`, iterated over the remaining bin indices:
`if (wSum[i] > pW) { pW = wSum[i]; pIdx = i; }`. -/
def primaryFoldGo (w : ℕ → ℚ) : List ℕ → ℤ × ℚ → ℤ × ℚ
  | [], st => st
  | i :: rest, st =>
    primaryFoldGo w rest (if w i > st.2 then ((i : ℤ), w i) else st)

/-- The primary scan of `extractColors` in `script-entry.js`:
`let pIdx = -1; let pW = 0; for (let i = 0; i < SIZE; i++)
if (wSum[i] > pW) { pW = wSum[i]; pIdx = i; }`. -/
def primaryScan (w : ℕ → ℚ) : ℤ × ℚ :=
  primaryFoldGo w (List.range 180) (-1, 0)

/-- The loop body of the secondary scan of `extractColors` in
`script-entry.js`: `const w = wSum[i]; if (w <= 0) continue; ...
let dh = Math.min(dh, 360 - dh); if (dh >= 25 && w > sW)
{ sW = w; sIdx = i; }`. -/
def secondaryFoldGo (w : ℕ → ℚ) (pHue : ℚ) : List ℕ → ℤ × ℚ → ℤ × ℚ
  | [], st => st
  | i :: rest, st =>
    secondaryFoldGo w pHue rest
      (if w i ≤ 0 then st
       else if 25 ≤ hueDist (hueOf i) pHue ∧ w i > st.2 then ((i : ℤ), w i)
       else st)

/-- The secondary scan of `extractColors` in `script-entry.js`:
`let sIdx = -1; let sW = 0;` then the loop body over all bins. -/
def secondaryScan (w : ℕ → ℚ) (pHue : ℚ) : ℤ × ℚ :=
  secondaryFoldGo w pHue (List.range 180) (-1, 0)

/-- The bins whose averages the `script-entry.js` extractor renders from:
the primary bin, plus the secondary bin when `sIdx >= 0 && sW >= pW * 0.6`. -/
def entryPicks (data : List Pixel) : List ℕ :=
  let H := histOf data
  let pr := primaryScan H.w
  if pr.1 < 0 ∨ pr.2 ≤ 0 then []
  else
    let pIdx := pr.1.toNat
    let sc := secondaryScan H.w (hueOf pIdx)
    if 0 ≤ sc.1 ∧ pr.2 * (3 / 5) ≤ sc.2 then [pIdx, sc.1.toNat] else [pIdx]

/-- Slot rendering of the `script-entry.js` extractor: the weighted-average
RGB of the bin, converted to hue/saturation, saturation scaled by `scale`
(`1.15` primary, `1.05` secondary) and clamped into `[0.45, 1]`,
re-rendered at lightness `L`. -/
def entrySlotColor (H : Hist) (i : ℕ) (scale L : ℚ) : ℤ × ℤ × ℤ :=
  let rgb := avgRGB H i
  let hs := rgbToHsl (rgb.1 : ℚ) (rgb.2.1 : ℚ) (rgb.2.2 : ℚ)
  hslToRgb hs.1 (max (45 / 100) (min 1 (hs.2.1 * scale))) L

/-- The function `extractColors` of `script-entry.js` on an already-sampled
pixel buffer: argmax primary bin, optional secondary bin at hue distance
`>= 25` with weight `>= 60%` of the primary, saturations scaled by
`1.15`/`1.05` and clamped into `[0.45, 1]`, two colors at lightness
`0.5` and `0.72`. -/
def extractColorsEntry (data : List Pixel) (idx : ℕ) : Palette :=
  let H := histOf data
  let pr := primaryScan H.w
  if pr.1 < 0 ∨ pr.2 ≤ 0 then fallbackFromIndex idx
  else
    let pIdx := pr.1.toNat
    let sc := secondaryScan H.w (hueOf pIdx)
    let prgb := avgRGB H pIdx
    let hs1 := rgbToHsl (prgb.1 : ℚ) (prgb.2.1 : ℚ) (prgb.2.2 : ℚ)
    let s1 := max (45 / 100) (min 1 (hs1.2.1 * (23 / 20)))
    if 0 ≤ sc.1 ∧ pr.2 * (3 / 5) ≤ sc.2 then
      let srgb := avgRGB H sc.1.toNat
      let hs2 := rgbToHsl (srgb.1 : ℚ) (srgb.2.1 : ℚ) (srgb.2.2 : ℚ)
      { c1 := hslToRgb hs1.1 s1 (1 / 2),
        c2 := hslToRgb hs2.1 (max (45 / 100) (min 1 (hs2.2.1 * (21 / 20))))
          (18 / 25),
        c3 := none, c4 := none }
    else
      { c1 := hslToRgb hs1.1 s1 (1 / 2),
        c2 := hslToRgb hs1.1 s1 (18 / 25),
        c3 := none, c4 := none }

/-! ### Theorems -/

theorem jsRem_nonneg_lt (a b : ℚ) (hb : 0 < b) (ha : 0 ≤ a) :
    0 ≤ jsRem a b ∧ jsRem a b < b := by
  have hdiv : (0 : ℚ) ≤ a / b := div_nonneg ha hb.le
  have htr : qtrunc (a / b) = ⌊a / b⌋ := by simp [qtrunc, hdiv]
  have h1 : ((⌊a / b⌋ : ℤ) : ℚ) ≤ a / b := Int.floor_le _
  have h2 : a / b < (⌊a / b⌋ : ℚ) + 1 := Int.lt_floor_add_one _
  have hb' : b ≠ 0 := ne_of_gt hb
  constructor
  · have := mul_le_mul_of_nonneg_left h1 hb.le
    rw [mul_div_cancel₀ a hb'] at this
    simp only [jsRem, htr]
    linarith
  · have := mul_lt_mul_of_pos_left h2 hb
    rw [mul_div_cancel₀ a hb'] at this
    simp only [jsRem, htr]
    linarith

theorem jsRem_range (a b : ℚ) (hb : 0 < b) :
    -b < jsRem a b ∧ jsRem a b < b := by
  rcases le_or_lt 0 a with ha | ha
  · have h := jsRem_nonneg_lt a b hb ha
    exact ⟨lt_of_lt_of_le (neg_neg_of_pos hb) h.1, h.2⟩
  · have hdiv : a / b < 0 := div_neg_of_neg_of_pos ha hb
    have htr : qtrunc (a / b) = ⌈a / b⌉ := by
      simp [qtrunc, not_le.mpr hdiv]
    have h1 : a / b ≤ ((⌈a / b⌉ : ℤ) : ℚ) := Int.le_ceil _
    have h2 : ((⌈a / b⌉ : ℤ) : ℚ) < a / b + 1 := Int.ceil_lt_add_one _
    have hb' : b ≠ 0 := ne_of_gt hb
    constructor
    · have := mul_lt_mul_of_pos_left h2 hb
      rw [mul_add, mul_div_cancel₀ a hb', mul_one] at this
      simp only [jsRem, htr]
      linarith
    · have := mul_le_mul_of_nonneg_left h1 hb.le
      rw [mul_div_cancel₀ a hb'] at this
      simp only [jsRem, htr]
      linarith

theorem mod_mem (n m : ℚ) (hm : 0 < m) : 0 ≤ mod n m ∧ mod n m < m := by
  have h1 := jsRem_range n m hm
  have h2 : 0 ≤ jsRem n m + m := by linarith [h1.1]
  have := jsRem_nonneg_lt (jsRem n m + m) m hm h2
  exact ⟨this.1, this.2⟩

theorem wrapPos_mem (L base offset : ℚ) (hL : 0 < L)
    (hbase : 0 ≤ base) (hbase2 : base < L)
    (hoff : 0 ≤ offset) (hoff2 : offset < L) :
    -(L / 2) ≤ wrapPos L base offset ∧ wrapPos L base offset ≤ L / 2 := by
  have hlo : -L < base - offset := by linarith
  have hhi : base - offset < L := by linarith
  simp only [wrapPos]
  split_ifs with h1 h2 h2 <;> constructor <;> linarith

theorem integrateSteps_mem (L : ℚ) (hL : 0 < L) (x : ℚ)
    (hx : 0 ≤ x ∧ x < L) (vs : List (ℚ × ℚ)) :
    0 ≤ integrateSteps L x vs ∧ integrateSteps L x vs < L := by
  induction vs generalizing x with
  | nil => simpa [integrateSteps] using hx
  | cons vd rest ih =>
    have hstep := mod_mem (x + vd.1 * vd.2) L hL
    simpa [integrateSteps] using ih (mod (x + vd.1 * vd.2) L) hstep

/-- C1: for every track length `L = n * step > 0`, every item base
offset `i * step` (`i < n`) and every scroll offset in `[0, L)`, the
wrapped position computed in `updateCarouselTransforms` lies in
`[-L/2, L/2]`; and one `tick` integration step `mod(offset + v*dt, L)`
always lands in `[0, L)`, so repeated integration never leaves `[0, L)`. -/
theorem wrap_and_integrate_invariant (n : ℕ) (step offset v dt : ℚ)
    (hstep : 0 < step) (hn : 0 < n)
    (hoff : 0 ≤ offset) (hoff2 : offset < (n : ℚ) * step) :
    (∀ p ∈ resolvePositions n step offset,
        -(((n : ℚ) * step) / 2) ≤ p ∧ p ≤ ((n : ℚ) * step) / 2) ∧
    (0 ≤ mod (offset + v * dt) ((n : ℚ) * step) ∧
        mod (offset + v * dt) ((n : ℚ) * step) < (n : ℚ) * step) ∧
    (∀ vs : List (ℚ × ℚ),
        0 ≤ integrateSteps ((n : ℚ) * step) offset vs ∧
        integrateSteps ((n : ℚ) * step) offset vs < (n : ℚ) * step) := by
  have hL : 0 < (n : ℚ) * step := by
    have : (0 : ℚ) < (n : ℚ) := by exact_mod_cast hn
    exact mul_pos this hstep
  refine ⟨?_, mod_mem _ _ hL, fun vs => integrateSteps_mem _ hL _ ⟨hoff, hoff2⟩ vs⟩
  intro p hp
  rw [resolvePositions, List.mem_map] at hp
  obtain ⟨i, hi, rfl⟩ := hp
  rw [List.mem_range] at hi
  have hi0 : (0 : ℚ) ≤ (i : ℚ) := by positivity
  have hbase : 0 ≤ (i : ℚ) * step := mul_nonneg hi0 hstep.le
  have hbase2 : (i : ℚ) * step < (n : ℚ) * step := by
    have : (i : ℚ) < (n : ℚ) := by exact_mod_cast hi
    exact mul_lt_mul_of_pos_right this hstep
  exact wrapPos_mem _ _ _ hL hbase hbase2 hoff hoff2

/-- Witness for C1 at `n = 10`, `step = 328`, `offset = 100`,
`v = -7`, `dt = 1/60`. -/
theorem wrap_and_integrate_invariant_witness :
    (∀ p ∈ resolvePositions 10 328 100,
        -(((10 : ℚ) * 328) / 2) ≤ p ∧ p ≤ ((10 : ℚ) * 328) / 2) ∧
    (0 ≤ mod (100 + (-7) * (1 / 60)) ((10 : ℚ) * 328) ∧
        mod (100 + (-7) * (1 / 60)) ((10 : ℚ) * 328) < (10 : ℚ) * 328) ∧
    (∀ vs : List (ℚ × ℚ),
        0 ≤ integrateSteps ((10 : ℚ) * 328) 100 vs ∧
        integrateSteps ((10 : ℚ) * 328) 100 vs < (10 : ℚ) * 328) :=
  wrap_and_integrate_invariant 10 328 100 (-7) (1 / 60)
    (by norm_num) (by norm_num) (by norm_num) (by norm_num)

theorem closestScan_some_spec (l : List ℚ) : ∀ (i : ℕ) (b : ℤ) (d : ℚ),
    (closestScan l i b (some d) = b ∧ ∀ j, j < l.length → d ≤ |l.getD j 0|) ∨
    (∃ k, k < l.length ∧ closestScan l i b (some d) = ((i + k : ℕ) : ℤ) ∧
      |l.getD k 0| < d ∧
      (∀ j, j < l.length → |l.getD k 0| ≤ |l.getD j 0|) ∧
      (∀ j, j < k → |l.getD k 0| < |l.getD j 0|)) := by
  induction l with
  | nil =>
    intro i b d
    left
    exact ⟨rfl, fun j hj => absurd hj (by simp)⟩
  | cons p rest ih =>
    intro i b d
    by_cases hpd : |p| < d
    · have hred : closestScan (p :: rest) i b (some d)
          = closestScan rest (i + 1) (i : ℤ) (some |p|) := by
        simp only [closestScan]
        rw [if_pos hpd]
      rcases ih (i + 1) (i : ℤ) |p| with ⟨heq, hall⟩ | ⟨k, hk, heq, hlt, hmin, hfirst⟩
      · right
        refine ⟨0, by simp, ?_, by simpa using hpd, ?_, ?_⟩
        · rw [hred, heq]; simp
        · intro j hj
          cases j with
          | zero => simp
          | succ j' =>
            simp only [List.getD_cons_zero, List.getD_cons_succ]
            exact hall j' (by simpa using hj)
        · intro j hj
          exact absurd hj (Nat.not_lt_zero j)
      · right
        refine ⟨k + 1, by simpa using hk, ?_, ?_, ?_, ?_⟩
        · rw [hred, heq]; push_cast; ring
        · simp only [List.getD_cons_succ]
          exact lt_trans hlt hpd
        · intro j hj
          cases j with
          | zero =>
            simp only [List.getD_cons_succ, List.getD_cons_zero]
            exact le_of_lt hlt
          | succ j' =>
            simp only [List.getD_cons_succ]
            exact hmin j' (by simpa using hj)
        · intro j hj
          cases j with
          | zero =>
            simp only [List.getD_cons_succ, List.getD_cons_zero]
            exact hlt
          | succ j' =>
            simp only [List.getD_cons_succ]
            exact hfirst j' (by omega)
    · have hred : closestScan (p :: rest) i b (some d)
          = closestScan rest (i + 1) b (some d) := by
        simp only [closestScan]
        rw [if_neg hpd]
      rcases ih (i + 1) b d with ⟨heq, hall⟩ | ⟨k, hk, heq, hlt, hmin, hfirst⟩
      · left
        refine ⟨by rw [hred, heq], ?_⟩
        intro j hj
        cases j with
        | zero =>
          simp only [List.getD_cons_zero]
          exact le_of_not_lt hpd
        | succ j' =>
          simp only [List.getD_cons_succ]
          exact hall j' (by simpa using hj)
      · right
        refine ⟨k + 1, by simpa using hk, ?_, ?_, ?_, ?_⟩
        · rw [hred, heq]; push_cast; ring
        · simp only [List.getD_cons_succ]
          exact hlt
        · intro j hj
          cases j with
          | zero =>
            simp only [List.getD_cons_succ, List.getD_cons_zero]
            exact le_of_lt (lt_of_lt_of_le hlt (le_of_not_lt hpd))
          | succ j' =>
            simp only [List.getD_cons_succ]
            exact hmin j' (by simpa using hj)
        · intro j hj
          cases j with
          | zero =>
            simp only [List.getD_cons_succ, List.getD_cons_zero]
            exact lt_of_lt_of_le hlt (le_of_not_lt hpd)
          | succ j' =>
            simp only [List.getD_cons_succ]
            exact hfirst j' (by omega)

theorem closestIdx_spec (l : List ℚ) (hne : l ≠ []) :
    ∃ k : ℕ, k < l.length ∧ closestIdx l = (k : ℤ) ∧
      (∀ j, j < l.length → |l.getD k 0| ≤ |l.getD j 0|) ∧
      (∀ j, j < k → |l.getD k 0| < |l.getD j 0|) := by
  cases l with
  | nil => exact absurd rfl hne
  | cons p rest =>
    have hred : closestIdx (p :: rest) = closestScan rest 1 (0 : ℤ) (some |p|) := by
      simp [closestIdx, closestScan]
    rcases closestScan_some_spec rest 1 0 |p| with ⟨heq, hall⟩ | ⟨k, hk, heq, hlt, hmin, hfirst⟩
    · refine ⟨0, by simp, by rw [hred, heq]; simp, ?_, ?_⟩
      · intro j hj
        cases j with
        | zero => simp
        | succ j' =>
          simp only [List.getD_cons_zero, List.getD_cons_succ]
          exact hall j' (by simpa using hj)
      · intro j hj
        exact absurd hj (Nat.not_lt_zero j)
    · refine ⟨k + 1, by simpa using hk, ?_, ?_, ?_⟩
      · rw [hred, heq]; push_cast; ring
      · intro j hj
        cases j with
        | zero =>
          simp only [List.getD_cons_succ, List.getD_cons_zero]
          exact le_of_lt hlt
        | succ j' =>
          simp only [List.getD_cons_succ]
          exact hmin j' (by simpa using hj)
      · intro j hj
        cases j with
        | zero =>
          simp only [List.getD_cons_succ, List.getD_cons_zero]
          exact hlt
        | succ j' =>
          simp only [List.getD_cons_succ]
          exact hfirst j' (by omega)

/-- C3: for every non-empty item list and every scroll offset, the
index reported by the left-to-right scan of `updateCarouselTransforms` is
an index of minimum `|wrapped position|`, and every strictly earlier index
has a strictly larger distance — so on ties the lowest index wins and the
result is deterministic. -/
theorem active_index_minimal_and_tiebreak (n : ℕ) (step offset : ℚ) (hn : 0 < n) :
    ∃ k : ℕ, k < n ∧
      closestIdx (resolvePositions n step offset) = (k : ℤ) ∧
      (∀ j, j < n →
        |(resolvePositions n step offset).getD k 0| ≤
          |(resolvePositions n step offset).getD j 0|) ∧
      (∀ j, j < k →
        |(resolvePositions n step offset).getD k 0| <
          |(resolvePositions n step offset).getD j 0|) := by
  have hlen : (resolvePositions n step offset).length = n := by
    simp [resolvePositions]
  have hne : resolvePositions n step offset ≠ [] := by
    intro h
    rw [h] at hlen
    simp at hlen
    omega
  obtain ⟨k, hk, heq, hmin, hfirst⟩ := closestIdx_spec _ hne
  rw [hlen] at hk hmin
  exact ⟨k, hk, heq, hmin, hfirst⟩

/-- Witness for C3 at three items with step 5 and offset 12. -/
theorem active_index_minimal_and_tiebreak_witness :
    ∃ k : ℕ, k < 3 ∧
      closestIdx (resolvePositions 3 5 12) = (k : ℤ) ∧
      (∀ j, j < 3 →
        |(resolvePositions 3 5 12).getD k 0| ≤ |(resolvePositions 3 5 12).getD j 0|) ∧
      (∀ j, j < k →
        |(resolvePositions 3 5 12).getD k 0| < |(resolvePositions 3 5 12).getD j 0|) :=
  active_index_minimal_and_tiebreak 3 5 12 (by norm_num)

theorem decayOf_pos (dt : ℝ) : 0 < decayOf dt :=
  Real.rpow_pos_of_pos (by norm_num [FRICTION]) _

theorem decayOf_lt_one (dt : ℝ) (h : 0 < dt) : decayOf dt < 1 :=
  Real.rpow_lt_one (by norm_num [FRICTION]) (by norm_num [FRICTION])
    (by linarith)

/-- C2: a `tick` step multiplies the velocity by
`decay = FRICTION ^ (dt * 60)` which lies in `(0, 1)` for `dt > 0`, so the
velocity magnitude never increases; and whenever the decayed velocity has
magnitude below the snap threshold `0.02` — in particular whenever the
incoming velocity is already below it — the step sets the velocity to
exactly `0`, so the velocity reaches exact zero in one step once below the
threshold. -/
theorem friction_monotone_and_snap (v dt : ℝ) (hdt : 0 < dt) :
    0 < decayOf dt ∧ decayOf dt < 1 ∧
    |tickVel v dt| ≤ |v| ∧
    (|v * decayOf dt| < 1 / 50 → tickVel v dt = 0) ∧
    (|v| < 1 / 50 → tickVel v dt = 0) := by
  have hpos := decayOf_pos dt
  have hlt1 := decayOf_lt_one dt hdt
  have hmul : |v * decayOf dt| ≤ |v| := by
    rw [abs_mul, abs_of_pos hpos]
    calc |v| * decayOf dt ≤ |v| * 1 :=
          mul_le_mul_of_nonneg_left (le_of_lt hlt1) (abs_nonneg v)
      _ = |v| := mul_one _
  refine ⟨hpos, hlt1, ?_, ?_, ?_⟩
  · by_cases h : |v * decayOf dt| < 1 / 50
    · simp only [tickVel, if_pos h, abs_zero]
      exact abs_nonneg v
    · simpa only [tickVel, if_neg h] using hmul
  · intro h
    simp only [tickVel, if_pos h]
  · intro h
    have : |v * decayOf dt| < 1 / 50 := lt_of_le_of_lt hmul h
    simp only [tickVel, if_pos this]

/-- Witness for C2 at `v = 1`, `dt = 1/60`. -/
theorem friction_monotone_and_snap_witness :
    0 < decayOf (1 / 60) ∧ decayOf (1 / 60) < 1 ∧
    |tickVel 1 (1 / 60)| ≤ |(1 : ℝ)| ∧
    (|1 * decayOf (1 / 60)| < 1 / 50 → tickVel 1 (1 / 60) = 0) ∧
    (|(1 : ℝ)| < 1 / 50 → tickVel 1 (1 / 60) = 0) :=
  friction_monotone_and_snap 1 (1 / 60) (by norm_num)

/-- C4 counterexample: in `script-entry.js`, with 3 items of step 10
at offset 0 and half viewport width 400, item 1 is not the nearest-center
item (item 0 is), yet its blur is `0` while the claimed formula
`2 * |n| ^ 1.1` is strictly positive — the two ring neighbours of the
nearest item are also exempted, so the claim that no item other than the
single nearest-center item is exempted is false. -/
theorem blur_single_exemption_counterexample :
    closestIdx (resolvePositions 3 10 0) = 0 ∧
    (1 : ℤ) ≠ closestIdx (resolvePositions 3 10 0) ∧
    itemBlurEntry 3 10 0 400 1 = 0 ∧
    0 < 2 * |normOf (((resolvePositions 3 10 0).getD 1 0 : ℚ) : ℝ) 400| ^
        ((11 : ℝ) / 10) := by
  have hres : resolvePositions 3 10 0 = [0, 10, -10] := by
    norm_num [resolvePositions, wrapPos, List.range_succ]
  have hclosest : closestIdx (resolvePositions 3 10 0) = 0 := by
    rw [hres]
    norm_num [closestIdx, closestScan, abs_eq_max_neg, max_def]
  have hget : (resolvePositions 3 10 0).getD 1 0 = (10 : ℚ) := by
    rw [hres]
    rfl
  have hnorm : normOf (((10 : ℚ) : ℝ)) 400 = 1 / 40 := by
    rw [normOf]
    have h1 : (((10 : ℚ) : ℝ)) / 400 = 1 / 40 := by norm_num
    rw [h1]
    rw [min_eq_right (by norm_num : (1 : ℝ) / 40 ≤ 1)]
    rw [max_eq_right (by norm_num : (-1 : ℝ) ≤ 1 / 40)]
  have hcore : isCoreEntry 1 0 3 = true := by decide
  refine ⟨hclosest, by rw [hclosest]; decide, ?_, ?_⟩
  · rw [itemBlurEntry, hclosest, hcore, blurOf]
    simp
  · rw [hget, hnorm]
    have h2 : (0 : ℝ) < |(1 : ℝ) / 40| ^ ((11 : ℝ) / 10) :=
      Real.rpow_pos_of_pos (by norm_num) _
    linarith

/-- C4 (amended): the two variants differ in which items are exempted
from the blur formula.  In the variant file only the nearest-center item
gets blur `0` and every other item gets `3 * |n| ^ 1.1`; in
`script-entry.js` the nearest-center item and its two ring neighbours
(`closest ± 1 mod n`) get blur `0` and every other item gets
`2 * |n| ^ 1.1`. -/
theorem blur_exemption_amended (n : ℕ) (step offset : ℚ) (vwHalf : ℝ) (i : ℕ) :
    (isCoreEntry i (closestIdx (resolvePositions n step offset)) n = true →
      itemBlurEntry n step offset vwHalf i = 0) ∧
    (isCoreEntry i (closestIdx (resolvePositions n step offset)) n = false →
      itemBlurEntry n step offset vwHalf i =
        2 * |normOf (((resolvePositions n step offset).getD i 0 : ℚ) : ℝ) vwHalf| ^
          ((11 : ℝ) / 10)) ∧
    ((i : ℤ) = closestIdx (resolvePositions n step offset) →
      itemBlurPart n step offset vwHalf i = 0) ∧
    ((i : ℤ) ≠ closestIdx (resolvePositions n step offset) →
      itemBlurPart n step offset vwHalf i =
        3 * |normOf (((resolvePositions n step offset).getD i 0 : ℚ) : ℝ) vwHalf| ^
          ((11 : ℝ) / 10)) := by
  refine ⟨?_, ?_, ?_, ?_⟩
  · intro h
    rw [itemBlurEntry, h, blurOf]
    simp
  · intro h
    rw [itemBlurEntry, h, blurOf]
    simp
  · intro h
    rw [itemBlurPart, isCorePart, decide_eq_true h, blurOf]
    simp
  · intro h
    rw [itemBlurPart, isCorePart, decide_eq_false h, blurOf]
    simp

/-- Witness for the amended C4: with 3 items of step 10 at offset 0,
item 2 is the `prevIdx` neighbour in `script-entry.js`, but in the variant
file it is non-core and receives the formula blur. -/
theorem blur_exemption_amended_witness :
    itemBlurPart 3 10 0 400 2 =
      3 * |normOf (((resolvePositions 3 10 0).getD 2 0 : ℚ) : ℝ) 400| ^
        ((11 : ℝ) / 10) :=
  (blur_exemption_amended 3 10 0 400 2).2.2.2 (by
    have hres : resolvePositions 3 10 0 = [0, 10, -10] := by
      norm_num [resolvePositions, wrapPos, List.range_succ]
    rw [hres]
    norm_num [closestIdx, closestScan, abs_eq_max_neg, max_def])

/-- C9: calling `setActiveGradient` with `idx` equal to the currently
active index is a no-op: the whole state — active index, current channel
values, fast-window deadline, and the in-flight tween (so no new
animation) — is returned unchanged. -/
theorem retarget_idempotent (hasCtx hasGsap : Bool) (now : ℚ)
    (pals : List Palette) (nItems : ℕ) (idx : ℤ) (st : BGState)
    (h : st.activeIndex = idx) :
    setActiveGradient hasCtx hasGsap now pals nItems idx st = st := by
  rw [setActiveGradient, if_pos (Or.inr (Or.inr (Or.inr h.symm)))]

/-- Witness for C9: retargeting index 2 when index 2 is already
active. -/
theorem retarget_idempotent_witness :
    setActiveGradient true true 100 [] 5 2
        { activeIndex := 2, gradCurrent := initGradCurrent,
          bgFastUntil := 7, tween := none } =
      { activeIndex := 2, gradCurrent := initGradCurrent,
        bgFastUntil := 7, tween := none } :=
  retarget_idempotent true true 100 [] 5 2 _ rfl

/-- C10: an out-of-range index (`idx < 0` or `idx ≥ items.length`)
makes `setActiveGradient` return without modifying any state, any sequence
of such calls leaves the state unchanged, and in particular `activeIndex`
stays `-1` until the first in-range retarget. -/
theorem retarget_out_of_range_noop (hasCtx hasGsap : Bool) (now : ℚ)
    (pals : List Palette) (nItems : ℕ) (idx : ℤ) (st : BGState)
    (h : idx < 0 ∨ (nItems : ℤ) ≤ idx) :
    setActiveGradient hasCtx hasGsap now pals nItems idx st = st ∧
    (∀ idxs : List ℤ, (∀ j ∈ idxs, j < 0 ∨ (nItems : ℤ) ≤ j) →
      applyRetargets hasCtx hasGsap now pals nItems idxs st = st) ∧
    (∀ idxs : List ℤ, (∀ j ∈ idxs, j < 0 ∨ (nItems : ℤ) ≤ j) →
      (applyRetargets hasCtx hasGsap now pals nItems idxs
          initBGState).activeIndex = -1) := by
  have single : ∀ (s : BGState) (j : ℤ), j < 0 ∨ (nItems : ℤ) ≤ j →
      setActiveGradient hasCtx hasGsap now pals nItems j s = s := by
    intro s j hj
    rcases hj with hj | hj
    · rw [setActiveGradient, if_pos (Or.inr (Or.inl hj))]
    · rw [setActiveGradient, if_pos (Or.inr (Or.inr (Or.inl hj)))]
  have seq : ∀ (idxs : List ℤ) (s : BGState),
      (∀ j ∈ idxs, j < 0 ∨ (nItems : ℤ) ≤ j) →
      applyRetargets hasCtx hasGsap now pals nItems idxs s = s := by
    intro idxs
    induction idxs with
    | nil => intro s _; rfl
    | cons j rest ih =>
      intro s hall
      have h1 := single s j (hall j (List.mem_cons_self j rest))
      have h2 := ih (setActiveGradient hasCtx hasGsap now pals nItems j s)
        (fun x hx => hall x (List.mem_cons_of_mem j hx))
      calc applyRetargets hasCtx hasGsap now pals nItems (j :: rest) s
          = applyRetargets hasCtx hasGsap now pals nItems rest
              (setActiveGradient hasCtx hasGsap now pals nItems j s) := rfl
        _ = setActiveGradient hasCtx hasGsap now pals nItems j s := h2
        _ = s := h1
  refine ⟨single st idx h, fun idxs hall => seq idxs st hall, ?_⟩
  intro idxs hall
  rw [seq idxs initBGState hall]
  rfl

/-- Witness for C10: index 7 with 3 items, and a call sequence of
out-of-range indices starting from the initial state. -/
theorem retarget_out_of_range_noop_witness :
    setActiveGradient true false 50 [] 3 7 initBGState = initBGState ∧
    (∀ idxs : List ℤ, (∀ j ∈ idxs, j < 0 ∨ ((3 : ℕ) : ℤ) ≤ j) →
      applyRetargets true false 50 [] 3 idxs initBGState = initBGState) ∧
    (∀ idxs : List ℤ, (∀ j ∈ idxs, j < 0 ∨ ((3 : ℕ) : ℤ) ≤ j) →
      (applyRetargets true false 50 [] 3 idxs initBGState).activeIndex = -1) :=
  retarget_out_of_range_noop true false 50 [] 3 7 initBGState
    (Or.inr (by norm_num))

/-- C8 counterexample: with track length `0` the `tick` integration
step does not guard — it sets the offset to NaN (`none`) instead of
no-oping — and `onResize` with zero items likewise produces NaN; so the
claim that these operations guard and no-op on zero item count / track
length is false. -/
theorem degenerate_geometry_counterexample :
    tickOffset 0 5 1 0 = none ∧
    (∀ q : ℚ, tickOffset 0 5 1 0 ≠ some q) ∧
    onResizeOffset 3 0 2 0 = none := by
  have h1 : tickOffset 0 5 1 0 = none := by
    simp [tickOffset]
  refine ⟨h1, ?_, ?_⟩
  · intro q
    rw [h1]
    simp
  · simp [onResizeOffset]

/-- C8 (amended): neither `tick` nor `onResize` guards a zero track
length or zero item count — there the offset becomes non-finite (`none`);
the only guard present is `STEP || 1` for a zero step.  Whenever the track
length is positive (and, for `onResize`, the denominator
`items.length * prevStep` is nonzero), the offset stays finite and lands
in `[0, track)`. -/
theorem degenerate_geometry_amended :
    (∀ x v dt T : ℚ, 0 < T →
      ∃ r, tickOffset x v dt T = some r ∧ 0 ≤ r ∧ r < T) ∧
    (∀ x v dt : ℚ, tickOffset x v dt 0 = none) ∧
    (∀ sx s T : ℚ, onResizeOffset sx 0 s T = none) ∧
    (∀ (sx : ℚ) (n : ℕ) (s T : ℚ), (n : ℚ) * prevStepOf s ≠ 0 → 0 < T →
      ∃ r, onResizeOffset sx n s T = some r ∧ 0 ≤ r ∧ r < T) ∧
    prevStepOf 0 = 1 := by
  refine ⟨?_, ?_, ?_, ?_, by simp [prevStepOf]⟩
  · intro x v dt T hT
    rw [tickOffset, if_neg (ne_of_gt hT)]
    exact ⟨mod (x + v * dt) T, rfl, (mod_mem _ _ hT).1, (mod_mem _ _ hT).2⟩
  · intro x v dt
    simp [tickOffset]
  · intro sx s T
    simp [onResizeOffset]
  · intro sx n s T hdenom hT
    rw [onResizeOffset]
    simp only [if_neg hdenom, if_neg (ne_of_gt hT)]
    exact ⟨mod (sx / ((n : ℚ) * prevStepOf s) * T) T, rfl,
      (mod_mem _ _ hT).1, (mod_mem _ _ hT).2⟩

/-- Witness for the amended C8 at `x = 5`, `v = -3`, `dt = 2`,
`T = 7`. -/
theorem degenerate_geometry_amended_witness :
    ∃ r, tickOffset 5 (-3) 2 7 = some r ∧ 0 ≤ r ∧ r < 7 :=
  degenerate_geometry_amended.1 5 (-3) 2 7 (by norm_num)

theorem hueDist_comm (a b : ℚ) : hueDist a b = hueDist b a := by
  rw [hueDist, hueDist, abs_sub_comm]

theorem pickLoop_invariant (w : ℕ → ℚ) (ref : ℚ) :
    ∀ (cands picks : List ℕ),
      List.Pairwise (fun a b => 32 ≤ hueDist (hueOf a) (hueOf b)) picks →
      (∀ x ∈ picks, ref * (22 / 100) ≤ w x) →
      List.Pairwise (fun a b => 32 ≤ hueDist (hueOf a) (hueOf b))
        (pickLoop w ref cands picks) ∧
      ∀ x ∈ pickLoop w ref cands picks, ref * (22 / 100) ≤ w x := by
  intro cands
  induction cands with
  | nil =>
    intro picks h1 h2
    exact ⟨h1, h2⟩
  | cons i rest ih =>
    intro picks h1 h2
    simp only [pickLoop]
    split_ifs with hlen hw hok
    · exact ⟨h1, h2⟩
    · exact ⟨h1, h2⟩
    · apply ih
      · rw [List.pairwise_append]
        refine ⟨h1, by simp, ?_⟩
        intro a ha b hb
        simp only [List.mem_singleton] at hb
        subst hb
        rw [hueDist_comm]
        exact hok a ha
      · intro x hx
        rcases List.mem_append.mp hx with hx | hx
        · exact h2 x hx
        · simp only [List.mem_singleton] at hx
          subst hx
          exact le_of_not_lt hw
    · exact ih picks h1 h2

theorem passes_eq_false_of_filteredOut (p : Pixel) (h : filteredOut p) :
    passes p = false := by
  rw [passes]
  split_ifs with h1 h2
  · rfl
  · rfl
  · rcases h with h | h | h | h
    · exact absurd h h1
    · exact absurd (Or.inl h) h2
    · exact absurd (Or.inr (Or.inl h)) h2
    · exact absurd (Or.inr (Or.inr h)) h2

theorem histOf_allFiltered (data : List Pixel)
    (h : ∀ p ∈ data, passes p = false) : histOf data = emptyHist := by
  rw [histOf]
  induction data with
  | nil => rfl
  | cons p rest ih =>
    have hp : passes p = false := h p (List.mem_cons_self p rest)
    have hstep : histStep emptyHist p = emptyHist := by
      rw [histStep, hp]
      simp
    rw [List.foldl_cons, hstep]
    exact ih fun x hx => h x (List.mem_cons_of_mem p hx)

theorem indicesOf_allFiltered (data : List Pixel)
    (h : ∀ p ∈ data, passes p = false) : indicesOf data = [] := by
  rw [indicesOf, histOf_allFiltered data h]
  apply List.filter_eq_nil_iff.mpr
  intro i _
  simp [emptyHist]

/-- C7: when every pixel of the buffer is filtered out (alpha below
`0.05`, lightness below `0.10` or above `0.92`, or saturation below
`0.08` — e.g. an all-transparent or all-gray buffer), extraction returns
the deterministic index-keyed fallback palette — hue `(idx*37) mod 360`,
saturation `0.65`, lightness `0.52` and `0.72` — and extraction is a pure
function of the buffer, so identical buffers give identical output. -/
theorem allfiltered_fallback_deterministic (data : List Pixel) (idx : ℕ)
    (h : ∀ p ∈ data, filteredOut p) :
    extractColorsData data idx = fallbackFromIndex idx ∧
    fallbackFromIndex idx =
      { c1 := hslToRgb ((idx * 37 % 360 : ℕ) : ℚ) (13 / 20) (13 / 25),
        c2 := hslToRgb ((idx * 37 % 360 : ℕ) : ℚ) (13 / 20) (18 / 25),
        c3 := none, c4 := none } ∧
    (∀ d2 : List Pixel, d2 = data →
      extractColorsData d2 idx = extractColorsData data idx) := by
  have hall : ∀ p ∈ data, passes p = false :=
    fun p hp => passes_eq_false_of_filteredOut p (h p hp)
  have hind := indicesOf_allFiltered data hall
  refine ⟨?_, rfl, fun d2 hd2 => by rw [hd2]⟩
  rw [extractColorsData, hind]
  simp

/-- Witness for C7 on a one-pixel all-gray buffer at index 3. -/
theorem allfiltered_fallback_deterministic_witness :
    extractColorsData [grayPixel] 3 = fallbackFromIndex 3 ∧
    fallbackFromIndex 3 =
      { c1 := hslToRgb ((3 * 37 % 360 : ℕ) : ℚ) (13 / 20) (13 / 25),
        c2 := hslToRgb ((3 * 37 % 360 : ℕ) : ℚ) (13 / 20) (18 / 25),
        c3 := none, c4 := none } ∧
    (∀ d2 : List Pixel, d2 = [grayPixel] →
      extractColorsData d2 3 = extractColorsData [grayPixel] 3) :=
  allfiltered_fallback_deterministic [grayPixel] 3 (by
    intro p hp
    simp only [List.mem_singleton] at hp
    subst hp
    right
    right
    right
    norm_num [rgbToHsl, filteredOut, grayPixel])

theorem picksOf_nil_of_indices_nil (data : List Pixel)
    (h : indicesOf data = []) : picksOf data = [] := by
  rw [picksOf, sortedOf, h]
  rfl

/-- Helper: in the variant file, whenever the greedy selection returned at
least one pick, each returned color is the specified rendering of its
slot, with missing picks stood in for by the primary pick. -/
theorem extract_slots_of_picks_nonempty (data : List Pixel) (idx : ℕ)
    (hne : picksOf data ≠ []) :
    extractColorsData data idx =
      { c1 := specSlotColor (histOf data) ((picksOf data).headD 0) (1 / 2),
        c2 := specSlotColor (histOf data)
          ((picksOf data).getD 1 ((picksOf data).headD 0)) (17 / 25),
        c3 := some (specSlotColor (histOf data)
          ((picksOf data).getD 2 ((picksOf data).headD 0)) (3 / 5)),
        c4 := some (specSlotColor (histOf data)
          ((picksOf data).getD 3 ((picksOf data).headD 0)) (18 / 25)) } := by
  have hind : ¬(indicesOf data).isEmpty = true := by
    intro hempty
    exact hne (picksOf_nil_of_indices_nil data (List.isEmpty_iff.mp hempty))
  have hpk : ¬(picksOf data).isEmpty = true := by
    intro hempty
    exact hne (List.isEmpty_iff.mp hempty)
  rw [extractColorsData, if_neg hind, if_neg hpk]
  rfl

theorem passes_red : passes redPixel = true := by
  norm_num [passes, rgbToHsl, redPixel]

theorem binOf_red : binOf redPixel = 4 := by
  norm_num [binOf, rgbToHsl, redPixel]
  rfl

theorem weightOf_red : weightOf redPixel = 1 := by
  norm_num [weightOf, rgbToHsl, redPixel]

theorem histOf_red_w (i : ℕ) :
    (histOf [redPixel]).w i = if i = 4 then 1 else 0 := by
  have h : histOf [redPixel] = histStep emptyHist redPixel := rfl
  rw [h, histStep, passes_red]
  simp only [if_true]
  rw [binOf_red, weightOf_red]
  simp [emptyHist, Function.update_apply]

theorem filter_range_single (f : ℕ → Bool) (n a : ℕ) (ha : a < n)
    (hf : ∀ i, f i = true ↔ i = a) :
    (List.range n).filter f = [a] := by
  induction n with
  | zero => omega
  | succ m ih =>
    rw [List.range_succ, List.filter_append]
    by_cases ham : a = m
    · subst ham
      have h1 : (List.range a).filter f = [] := by
        apply List.filter_eq_nil_iff.mpr
        intro x hx
        rw [List.mem_range] at hx
        intro hfx
        have := (hf x).mp hfx
        omega
      rw [h1]
      simp [List.filter, (hf a).mpr rfl]
    · have ham' : a < m := by omega
      rw [ih ham']
      have hm : f m = false := by
        cases hfm : f m with
        | false => rfl
        | true => exact absurd ((hf m).mp hfm) (fun h => ham h.symm)
      simp [List.filter, hm]

theorem indicesOf_red : indicesOf [redPixel] = [4] := by
  rw [indicesOf]
  apply filter_range_single _ 180 4 (by norm_num)
  intro i
  rw [decide_eq_true_iff, histOf_red_w i]
  by_cases h : i = 4 <;> simp [h]

theorem sortedOf_red : sortedOf [redPixel] = [4] := by
  rw [sortedOf, indicesOf_red]
  rfl

theorem refWeightOf_red : refWeightOf [redPixel] = 1 := by
  rw [refWeightOf, sortedOf_red]
  simp only [List.headD]
  rw [histOf_red_w 4]
  norm_num

theorem picksOf_red : picksOf [redPixel] = [4] := by
  rw [picksOf, sortedOf_red, refWeightOf_red]
  simp only [pickLoop]
  rw [if_neg (by simp), if_neg (by rw [histOf_red_w 4]; norm_num),
    if_pos (by simp)]
  rfl


theorem primaryFoldGo_append (w : ℕ → ℚ) (l1 l2 : List ℕ) (st : ℤ × ℚ) :
    primaryFoldGo w (l1 ++ l2) st
      = primaryFoldGo w l2 (primaryFoldGo w l1 st) := by
  induction l1 generalizing st with
  | nil => rfl
  | cons i rest ih =>
    simp only [List.cons_append, primaryFoldGo]
    exact ih _

theorem primaryFoldGo_const (w : ℕ → ℚ) (l : List ℕ) (st : ℤ × ℚ)
    (h : ∀ i ∈ l, ¬st.2 < w i) : primaryFoldGo w l st = st := by
  induction l with
  | nil => rfl
  | cons i rest ih =>
    rw [primaryFoldGo, if_neg (h i (List.mem_cons_self i rest))]
    exact ih fun x hx => h x (List.mem_cons_of_mem i hx)

theorem secondaryFoldGo_append (w : ℕ → ℚ) (pHue : ℚ) (l1 l2 : List ℕ)
    (st : ℤ × ℚ) :
    secondaryFoldGo w pHue (l1 ++ l2) st
      = secondaryFoldGo w pHue l2 (secondaryFoldGo w pHue l1 st) := by
  induction l1 generalizing st with
  | nil => rfl
  | cons i rest ih =>
    simp only [List.cons_append, secondaryFoldGo]
    exact ih _

theorem secondaryFoldGo_const (w : ℕ → ℚ) (pHue : ℚ) (l : List ℕ) (st : ℤ × ℚ)
    (h : ∀ i ∈ l, w i ≤ 0 ∨ ¬(25 ≤ hueDist (hueOf i) pHue ∧ st.2 < w i)) :
    secondaryFoldGo w pHue l st = st := by
  induction l with
  | nil => rfl
  | cons i rest ih =>
    have hstep : (if w i ≤ 0 then st
        else if 25 ≤ hueDist (hueOf i) pHue ∧ w i > st.2 then ((i : ℤ), w i)
        else st) = st := by
      rcases h i (List.mem_cons_self i rest) with h1 | h1
      · rw [if_pos h1]
      · by_cases h0 : w i ≤ 0
        · rw [if_pos h0]
        · rw [if_neg h0, if_neg h1]
    rw [secondaryFoldGo, hstep]
    exact ih fun x hx => h x (List.mem_cons_of_mem i hx)

theorem secondaryFoldGo_spec (w : ℕ → ℚ) (pHue : ℚ) (l : List ℕ) :
    ∀ st : ℤ × ℚ,
      (st.1 = -1 ∨ ∃ i : ℕ, st.1 = (i : ℤ) ∧ 25 ≤ hueDist (hueOf i) pHue) →
      ((secondaryFoldGo w pHue l st).1 = -1 ∨
        ∃ i : ℕ, (secondaryFoldGo w pHue l st).1 = (i : ℤ) ∧
          25 ≤ hueDist (hueOf i) pHue) := by
  induction l with
  | nil => intro st h; exact h
  | cons i rest ih =>
    intro st h
    rw [secondaryFoldGo]
    apply ih
    by_cases h0 : w i ≤ 0
    · rw [if_pos h0]; exact h
    · rw [if_neg h0]
      by_cases h1 : 25 ≤ hueDist (hueOf i) pHue ∧ w i > st.2
      · rw [if_pos h1]
        exact Or.inr ⟨i, rfl, h1.1⟩
      · rw [if_neg h1]; exact h

theorem secondaryScan_spec (w : ℕ → ℚ) (pHue : ℚ) :
    (secondaryScan w pHue).1 = -1 ∨
    ∃ i : ℕ, (secondaryScan w pHue).1 = (i : ℤ) ∧
      25 ≤ hueDist (hueOf i) pHue :=
  secondaryFoldGo_spec w pHue (List.range 180) (-1, 0) (Or.inl rfl)

theorem passes_orange : passes orangePixel = true := by
  norm_num [passes, rgbToHsl, orangePixel]

theorem binOf_orange : binOf orangePixel = 19 := by
  norm_num [binOf, rgbToHsl, orangePixel]
  rfl

theorem weightOf_orange : weightOf orangePixel = 1 := by
  norm_num [weightOf, rgbToHsl, orangePixel]

theorem histStep_w (H : Hist) (p : Pixel) :
    (histStep H p).w = if passes p then
      Function.update H.w (binOf p) (H.w (binOf p) + weightOf p) else H.w := by
  rw [histStep]
  split_ifs <;> rfl

theorem histOf_ro_w (i : ℕ) :
    (histOf [redPixel, orangePixel]).w i =
      if i = 19 then 1 else if i = 4 then 1 else 0 := by
  have h : histOf [redPixel, orangePixel]
      = histStep (histStep emptyHist redPixel) orangePixel := rfl
  rw [h, histStep_w, passes_orange, if_pos rfl, binOf_orange, weightOf_orange,
    histStep_w, passes_red, if_pos rfl, binOf_red, weightOf_red]
  simp only [emptyHist, Function.update_apply]
  norm_num

theorem histOf_ro_w_le (i : ℕ) : (histOf [redPixel, orangePixel]).w i ≤ 1 := by
  rw [histOf_ro_w]
  split_ifs <;> norm_num

theorem hueOf_4 : hueOf 4 = 0 := by norm_num [hueOf]

theorem hueOf_19 : hueOf 19 = 30 := by norm_num [hueOf]

theorem primaryScan_ro :
    primaryScan (histOf [redPixel, orangePixel]).w = (4, 1) := by
  have hsplit : List.range 180
      = (List.range 4 ++ [4]) ++ (List.range 175).map (4 + 1 + ·) := by
    rw [← List.range_succ, ← List.range_add]
  have e1 : primaryFoldGo (histOf [redPixel, orangePixel]).w
      (List.range 4) (-1, 0) = (-1, 0) := by
    apply primaryFoldGo_const
    intro i hi
    rw [List.mem_range] at hi
    rw [histOf_ro_w, if_neg (by omega), if_neg (by omega)]
    norm_num
  have e2 : primaryFoldGo (histOf [redPixel, orangePixel]).w [4] (-1, 0)
      = (4, 1) := by
    have h4 : (histOf [redPixel, orangePixel]).w 4 = 1 := by
      rw [histOf_ro_w]
      norm_num
    simp only [primaryFoldGo, h4]
    norm_num
  have e3 : primaryFoldGo (histOf [redPixel, orangePixel]).w
      ((List.range 175).map (4 + 1 + ·)) (4, 1) = (4, 1) := by
    apply primaryFoldGo_const
    intro i _
    rw [not_lt]
    exact histOf_ro_w_le i
  rw [primaryScan, hsplit, primaryFoldGo_append, primaryFoldGo_append, e1, e2,
    e3]

theorem secondaryScan_ro :
    secondaryScan (histOf [redPixel, orangePixel]).w (hueOf 4) = (19, 1) := by
  have hsplit : List.range 180
      = (List.range 19 ++ [19]) ++ (List.range 160).map (19 + 1 + ·) := by
    rw [← List.range_succ, ← List.range_add]
  have e1 : secondaryFoldGo (histOf [redPixel, orangePixel]).w (hueOf 4)
      (List.range 19) (-1, 0) = (-1, 0) := by
    apply secondaryFoldGo_const
    intro i hi
    rw [List.mem_range] at hi
    by_cases h4 : i = 4
    · subst h4
      right
      rw [hueOf_4]
      intro hc
      have h25 := hc.1
      norm_num [hueDist, hueOf, abs_eq_max_neg, max_def, min_def] at h25
    · left
      rw [histOf_ro_w, if_neg (by omega), if_neg h4]
  have e2 : secondaryFoldGo (histOf [redPixel, orangePixel]).w (hueOf 4)
      [19] (-1, 0) = (19, 1) := by
    have h19 : (histOf [redPixel, orangePixel]).w 19 = 1 := by
      rw [histOf_ro_w]
      norm_num
    simp only [secondaryFoldGo, h19]
    rw [if_neg (by norm_num), if_pos (by
      constructor
      · rw [hueOf_19, hueOf_4]
        norm_num [hueDist, abs_eq_max_neg, max_def, min_def]
      · norm_num)]
    norm_num
  have e3 : secondaryFoldGo (histOf [redPixel, orangePixel]).w (hueOf 4)
      ((List.range 160).map (19 + 1 + ·)) (19, 1) = (19, 1) := by
    apply secondaryFoldGo_const
    intro i hi
    simp only [List.mem_map] at hi
    obtain ⟨j, _, rfl⟩ := hi
    left
    rw [histOf_ro_w, if_neg (by omega), if_neg (by omega)]
  rw [secondaryScan, hsplit, secondaryFoldGo_append, secondaryFoldGo_append,
    e1, e2, e3]

/-- C5 counterexample: in `script-entry.js`, on a buffer holding one pure
red and one orange pixel, extraction succeeds and renders from the two
bins 4 (bin hue 0°) and 19 (bin hue 30°) — the secondary rule there only
requires hue distance `>= 25` and weight `>= 60%` of the primary — so the
two picks of the returned palette are 30° apart, violating the claimed
32° separation. -/
theorem hue_separation_counterexample :
    entryPicks [redPixel, orangePixel] = [4, 19] ∧
    hueDist (hueOf 4) (hueOf 19) = 30 ∧
    ¬(32 ≤ hueDist (hueOf 4) (hueOf 19)) := by
  have hd : hueDist (hueOf 4) (hueOf 19) = 30 := by
    rw [hueOf_4, hueOf_19]
    norm_num [hueDist, abs_eq_max_neg, max_def, min_def]
  refine ⟨?_, hd, by rw [hd]; norm_num⟩
  have ht4 : (4 : ℤ).toNat = 4 := rfl
  have ht19 : (19 : ℤ).toNat = 19 := rfl
  simp only [entryPicks, primaryScan_ro]
  norm_num
  rw [ht4, secondaryScan_ro]
  norm_num [ht19]

/-- C5 (amended): the two extractors enforce different hue-separation
rules.  In the variant file any two distinct picks of the greedy loop have
circular bin-hue distance at least `32` and every pick has weight at least
`22%` of the top weight; in `script-entry.js` the palette renders from at
most two bins — the maximum-weight bin and a secondary bin accepted at
circular hue distance `>= 25` (with weight at least `60%` of the primary)
— so its two picks are at least `25°` apart but may be closer than `32°`. -/
theorem hue_separation_amended (data : List Pixel) :
    (List.Pairwise (fun a b => 32 ≤ hueDist (hueOf a) (hueOf b))
        (picksOf data) ∧
      ∀ i ∈ picksOf data, refWeightOf data * (22 / 100) ≤ (histOf data).w i) ∧
    List.Pairwise (fun a b => 25 ≤ hueDist (hueOf a) (hueOf b))
      (entryPicks data) := by
  constructor
  · rw [picksOf]
    exact pickLoop_invariant (histOf data).w (refWeightOf data)
      (sortedOf data) [] (by simp) (by simp)
  · simp only [entryPicks]
    split_ifs with hguard hbranch
    · simp
    · rcases secondaryScan_spec (histOf data).w
        (hueOf (primaryScan (histOf data).w).1.toNat) with hneg | ⟨i, heq, hdist⟩
      · have h0 := hbranch.1
        rw [hneg] at h0
        norm_num at h0
      · rw [heq, Int.toNat_natCast]
        rw [List.pairwise_cons]
        refine ⟨?_, List.pairwise_singleton _ _⟩
        intro b hb
        rw [List.mem_singleton] at hb
        subst hb
        rw [hueDist_comm]
        exact hdist
    · exact List.pairwise_singleton _ _

/-- Witness for the amended C5 on the red-and-orange buffer. -/
theorem hue_separation_amended_witness :
    (List.Pairwise (fun a b => 32 ≤ hueDist (hueOf a) (hueOf b))
        (picksOf [redPixel, orangePixel]) ∧
      ∀ i ∈ picksOf [redPixel, orangePixel],
        refWeightOf [redPixel, orangePixel] * (22 / 100) ≤
          (histOf [redPixel, orangePixel]).w i) ∧
    List.Pairwise (fun a b => 25 ≤ hueDist (hueOf a) (hueOf b))
      (entryPicks [redPixel, orangePixel]) :=
  hue_separation_amended [redPixel, orangePixel]

theorem histOf_red_w_le (i : ℕ) : (histOf [redPixel]).w i ≤ 1 := by
  rw [histOf_red_w]
  split_ifs <;> norm_num

theorem primaryScan_red : primaryScan (histOf [redPixel]).w = (4, 1) := by
  have hsplit : List.range 180
      = (List.range 4 ++ [4]) ++ (List.range 175).map (4 + 1 + ·) := by
    rw [← List.range_succ, ← List.range_add]
  have e1 : primaryFoldGo (histOf [redPixel]).w (List.range 4) (-1, 0)
      = (-1, 0) := by
    apply primaryFoldGo_const
    intro i hi
    rw [List.mem_range] at hi
    rw [histOf_red_w, if_neg (by omega)]
    norm_num
  have e2 : primaryFoldGo (histOf [redPixel]).w [4] (-1, 0) = (4, 1) := by
    have h4 : (histOf [redPixel]).w 4 = 1 := by
      rw [histOf_red_w]
      norm_num
    simp only [primaryFoldGo, h4]
    norm_num
  have e3 : primaryFoldGo (histOf [redPixel]).w
      ((List.range 175).map (4 + 1 + ·)) (4, 1) = (4, 1) := by
    apply primaryFoldGo_const
    intro i _
    rw [not_lt]
    exact histOf_red_w_le i
  rw [primaryScan, hsplit, primaryFoldGo_append, primaryFoldGo_append, e1, e2,
    e3]

theorem secondaryScan_red :
    secondaryScan (histOf [redPixel]).w (hueOf 4) = (-1, 0) := by
  rw [secondaryScan]
  apply secondaryFoldGo_const
  intro i _
  by_cases h4 : i = 4
  · subst h4
    right
    rw [hueOf_4]
    intro hc
    have h25 := hc.1
    norm_num [hueDist, hueOf, abs_eq_max_neg, max_def, min_def] at h25
  · left
    rw [histOf_red_w, if_neg h4]

theorem histStep_r (H : Hist) (p : Pixel) :
    (histStep H p).r = if passes p then
      Function.update H.r (binOf p) (H.r (binOf p) + (p.r : ℚ) * weightOf p)
    else H.r := by
  rw [histStep]
  split_ifs <;> rfl

theorem histStep_g (H : Hist) (p : Pixel) :
    (histStep H p).g = if passes p then
      Function.update H.g (binOf p) (H.g (binOf p) + (p.g : ℚ) * weightOf p)
    else H.g := by
  rw [histStep]
  split_ifs <;> rfl

theorem histStep_b (H : Hist) (p : Pixel) :
    (histStep H p).b = if passes p then
      Function.update H.b (binOf p) (H.b (binOf p) + (p.b : ℚ) * weightOf p)
    else H.b := by
  rw [histStep]
  split_ifs <;> rfl

theorem avgRGB_red4 : avgRGB (histOf [redPixel]) 4 = (255, 0, 0) := by
  have h : histOf [redPixel] = histStep emptyHist redPixel := rfl
  have hw : (histOf [redPixel]).w 4 = 1 := by
    rw [histOf_red_w]
    norm_num
  have hr : (histOf [redPixel]).r 4 = 255 := by
    rw [h, histStep_r, passes_red, if_pos rfl, binOf_red, weightOf_red]
    simp [emptyHist, Function.update_apply, redPixel]
  have hg : (histOf [redPixel]).g 4 = 0 := by
    rw [h, histStep_g, passes_red, if_pos rfl, binOf_red, weightOf_red]
    simp [emptyHist, Function.update_apply, redPixel]
  have hb : (histOf [redPixel]).b 4 = 0 := by
    rw [h, histStep_b, passes_red, if_pos rfl, binOf_red, weightOf_red]
    simp [emptyHist, Function.update_apply, redPixel]
  rw [avgRGB, hw, hr, hg, hb]
  norm_num [jround]

theorem hslToRgb_red : hslToRgb 0 1 (1 / 2) = (255, 0, 0) := by
  norm_num [hslToRgb, hue2rgb, mod, jsRem, qtrunc, jround]

theorem extractColorsEntry_red :
    extractColorsEntry [redPixel] 0 =
      { c1 := (255, 0, 0), c2 := hslToRgb 0 1 (18 / 25),
        c3 := none, c4 := none } := by
  have ht4 : (4 : ℤ).toNat = 4 := rfl
  simp only [extractColorsEntry, primaryScan_red]
  norm_num
  rw [ht4, secondaryScan_red]
  norm_num [avgRGB_red4]
  have hrgb : rgbToHsl 255 0 0 = (0, 1, 1 / 2) := by norm_num [rgbToHsl]
  rw [hrgb]
  norm_num [sup_eq_max, inf_eq_min, max_def, min_def, hslToRgb_red]

theorem hslToRgb_clamped : hslToRgb 0 (39 / 50) (1 / 2) = (227, 28, 28) := by
  norm_num [hslToRgb, hue2rgb, mod, jsRem, qtrunc, jround]

theorem specSlot_red :
    specSlotColor (histOf [redPixel]) 4 (1 / 2) = (227, 28, 28) := by
  simp only [specSlotColor]
  rw [avgRGB_red4]
  norm_num
  have hrgb : rgbToHsl 255 0 0 = (0, 1, 1 / 2) := by norm_num [rgbToHsl]
  rw [hrgb]
  norm_num [clampQ, sup_eq_max, inf_eq_min, max_def, min_def, hslToRgb_clamped]

/-- C6 counterexample: on a one-pixel pure-red buffer, `script-entry.js`
extraction succeeds with primary bin 4, and its primary color is
`hslToRgb(0, max(0.45, min(1, 1*1.15)), 0.5) = (255, 0, 0)` — not the
claimed rendering `hslToRgb(0, clamp(1*0.92, 0.30, 0.78), 0.5)
= (227, 28, 28)`; so in that variant the returned colors are not produced
by the claimed `0.92` scaling with `[0.30, 0.78]` clamp (nor does it have
the `0.68`/`0.60` slots). -/
theorem slot_rendering_counterexample :
    (primaryScan (histOf [redPixel]).w).1 = 4 ∧
    (extractColorsEntry [redPixel] 0).c1 = (255, 0, 0) ∧
    specSlotColor (histOf [redPixel]) 4 (1 / 2) = (227, 28, 28) ∧
    (extractColorsEntry [redPixel] 0).c1
      ≠ specSlotColor (histOf [redPixel]) 4 (1 / 2) := by
  refine ⟨by rw [primaryScan_red], by rw [extractColorsEntry_red],
    specSlot_red, ?_⟩
  rw [extractColorsEntry_red, specSlot_red]
  decide

/-- C6 (amended): the two extractors render their slots differently.  In
the variant file, when the greedy selection returned at least one pick,
each returned color is the pick bin weighted-average RGB converted to
hue/saturation, saturation scaled by `0.92` and clamped into
`[0.30, 0.78]`, re-rendered at the fixed lightness of its slot (`0.50`,
`0.68`, `0.60`, `0.72`), missing picks stood in for by the primary pick.
In `script-entry.js`, when the primary scan succeeds, the palette has two
colors: the primary bin rendered with saturation
`max(0.45, min(1, s*1.15))` at lightness `0.5`, and — when the secondary
bin qualifies (`sIdx >= 0` and `sW >= 0.6 * pW`) — the secondary bin with
saturation `max(0.45, min(1, s*1.05))` at lightness `0.72`, otherwise the
primary hue and saturation at `0.72`. -/
theorem slot_rendering_amended (data : List Pixel) (idx : ℕ) :
    (picksOf data ≠ [] →
      extractColorsData data idx =
        { c1 := specSlotColor (histOf data) ((picksOf data).headD 0) (1 / 2),
          c2 := specSlotColor (histOf data)
            ((picksOf data).getD 1 ((picksOf data).headD 0)) (17 / 25),
          c3 := some (specSlotColor (histOf data)
            ((picksOf data).getD 2 ((picksOf data).headD 0)) (3 / 5)),
          c4 := some (specSlotColor (histOf data)
            ((picksOf data).getD 3 ((picksOf data).headD 0)) (18 / 25)) }) ∧
    (¬((primaryScan (histOf data).w).1 < 0 ∨
        (primaryScan (histOf data).w).2 ≤ 0) →
      ((0 ≤ (secondaryScan (histOf data).w
              (hueOf (primaryScan (histOf data).w).1.toNat)).1 ∧
          (primaryScan (histOf data).w).2 * (3 / 5) ≤
            (secondaryScan (histOf data).w
              (hueOf (primaryScan (histOf data).w).1.toNat)).2) →
        extractColorsEntry data idx =
          { c1 := entrySlotColor (histOf data)
              (primaryScan (histOf data).w).1.toNat (23 / 20) (1 / 2),
            c2 := entrySlotColor (histOf data)
              (secondaryScan (histOf data).w
                (hueOf (primaryScan (histOf data).w).1.toNat)).1.toNat
              (21 / 20) (18 / 25),
            c3 := none, c4 := none }) ∧
      (¬(0 ≤ (secondaryScan (histOf data).w
              (hueOf (primaryScan (histOf data).w).1.toNat)).1 ∧
          (primaryScan (histOf data).w).2 * (3 / 5) ≤
            (secondaryScan (histOf data).w
              (hueOf (primaryScan (histOf data).w).1.toNat)).2) →
        extractColorsEntry data idx =
          { c1 := entrySlotColor (histOf data)
              (primaryScan (histOf data).w).1.toNat (23 / 20) (1 / 2),
            c2 := entrySlotColor (histOf data)
              (primaryScan (histOf data).w).1.toNat (23 / 20) (18 / 25),
            c3 := none, c4 := none })) := by
  refine ⟨fun hne => extract_slots_of_picks_nonempty data idx hne,
    fun hguard => ⟨?_, ?_⟩⟩
  · intro hbranch
    simp only [extractColorsEntry]
    rw [if_neg hguard, if_pos hbranch]
    rfl
  · intro hbranch
    simp only [extractColorsEntry]
    rw [if_neg hguard, if_neg hbranch]
    rfl

/-- Witness for the amended C6 on the red-and-orange buffer, where the
secondary branch of `script-entry.js` is taken. -/
theorem slot_rendering_amended_witness :
    extractColorsEntry [redPixel, orangePixel] 0 =
      { c1 := entrySlotColor (histOf [redPixel, orangePixel])
          (primaryScan (histOf [redPixel, orangePixel]).w).1.toNat
          (23 / 20) (1 / 2),
        c2 := entrySlotColor (histOf [redPixel, orangePixel])
          (secondaryScan (histOf [redPixel, orangePixel]).w
            (hueOf (primaryScan (histOf [redPixel, orangePixel]).w).1.toNat)).1.toNat
          (21 / 20) (18 / 25),
        c3 := none, c4 := none } :=
  ((slot_rendering_amended [redPixel, orangePixel] 0).2
    (by rw [primaryScan_ro]; norm_num)).1
    (by
      have ht4 : (4 : ℤ).toNat = 4 := rfl
      rw [primaryScan_ro]
      norm_num [ht4]
      rw [secondaryScan_ro]
      norm_num)
